import Mathlib

/-!
# Verification of the MCP-client backend core

Shallow embedding of the connection registry (`app/mcp/manager.py`), the
conversation / tool-orchestration engine (`app/agent/service.py`) and the
LLM collaborator layer (`app/ollama/manager.py`, `app/ollama/service.py`).

External I/O (the MCP transport and the Ollama HTTP client) is modelled by
oracle arguments: a transport `callTool` function, a health-probe outcome,
a chat-completion outcome.  Everything the repository's own code does with
those outcomes is embedded faithfully, branch by branch.
-/

set_option autoImplicit false

/-- A fragment of Python runtime values, enough to embed the dynamic
dictionaries the agent service manipulates (tool calls, argument maps). -/
inductive PyVal where
  | vstr (s : String)
  | vdict (d : List (String × PyVal))
  | vnone
  | vother
deriving Repr

/-- Decidable equality for the Python-value fragment. -/
def PyVal.beqImpl : PyVal → PyVal → Bool
  | .vstr s, .vstr t => s == t
  | .vdict d, .vdict e =>
      let rec go : List (String × PyVal) → List (String × PyVal) → Bool
        | [], [] => true
        | (k, v) :: xs, (k', v') :: ys => k == k' && PyVal.beqImpl v v' && go xs ys
        | _, _ => false
      go d e
  | .vnone, .vnone => true
  | .vother, .vother => true
  | _, _ => false

instance : BEq PyVal := ⟨PyVal.beqImpl⟩

/-- Python `d.get(k)`: first binding for a key in a dictionary, `None`-able. -/
def dictGet (k : String) : List (String × PyVal) → Option PyVal
  | [] => none
  | (k', v) :: rest => if k' = k then some v else dictGet k rest

/-- `app/models/schemas.py` `ServerStatus`. -/
inductive ServerStatus where
  | disconnected
  | connecting
  | connected
  | error
deriving DecidableEq, Repr

/-- `app/models/schemas.py` `ConnectionType`. -/
inductive ConnectionType where
  | stdio
  | http
deriving DecidableEq, Repr

/-- `app/models/schemas.py` `MCPServerConfig` (the fields the registry reads). -/
structure MCPServerConfig where
  id : Int
  name : String
  connection_type : ConnectionType
  command : Option String := none
  args : List String := []
  url : Option String := none
  enabled : Bool := true
deriving DecidableEq, Repr

/-- One tool as enumerated from a transport (`transport.list_tools()` items);
the connection layer only ever reads its `name`. -/
structure MCPTool where
  name : String
deriving DecidableEq, Repr

/-- `MCPServerConnection` mutable state (`app/mcp/manager.py`, `__init__`).
The transport handle is opaque, so it is kept as `Option Unit`: all the code
under verification tests is whether it is null. -/
structure MCPServerConnection where
  config : MCPServerConfig
  transport : Option Unit := none
  status : ServerStatus := .disconnected
  last_error : Option String := none
  available_tools : List MCPTool := []
deriving DecidableEq, Repr

/-- A Python exception escaping a function, as raised by
`MCPServerConnection.execute_tool`. -/
inductive PyError where
  | runtimeError (msg : String)
  | valueError (msg : String)
deriving DecidableEq, Repr

/-- Message text carried by a raised exception. -/
def PyError.msg : PyError → String
  | .runtimeError m => m
  | .valueError m => m

/-- The `{success, result, error}` dictionary `execute_tool` returns.
Transport result payloads are modelled as display strings. -/
structure ExecRecord where
  success : Bool
  result : Option String
  error : Option String
deriving DecidableEq, Repr

/-- The transport oracle: outcome of `self.transport.call_tool(name, args)`.
`Except.error e` is the transport raising with message `e`. -/
def TransportCall : Type := String → List (String × PyVal) → Except String String

/-- `MCPServerConnection.execute_tool` (`app/mcp/manager.py` lines 94-113).
Raises `RuntimeError` when not connected or the transport is null, raises
`ValueError` when the tool name is absent from the local catalog, and only
then calls the transport, normalizing its failure into a
`{success: false, error}` record. -/
def MCPServerConnection.execute_tool (c : MCPServerConnection) (tool_name : String)
    (arguments : List (String × PyVal)) (callTool : TransportCall) :
    Except PyError ExecRecord :=
  if c.status ≠ .connected ∨ c.transport = none then
    .error (.runtimeError ("Server " ++ c.config.name ++ " is not connected"))
  else if ¬ c.available_tools.any (fun t => t.name = tool_name) then
    .error (.valueError ("Tool " ++ tool_name ++ " not available on server " ++ c.config.name))
  else
    match callTool tool_name arguments with
    | .ok result => .ok ⟨true, some result, none⟩
    | .error e => .ok ⟨false, none, some e⟩

/-- `MCPServerConnection.health_check` (`app/mcp/manager.py` lines 115-131).
`probe` is the outcome of the liveness `list_tools` call; the function
returns the boolean result together with the connection state after the
call (the Python method mutates `self`). -/
def MCPServerConnection.health_check (c : MCPServerConnection)
    (probe : Except String (List MCPTool)) : Bool × MCPServerConnection :=
  if c.status ≠ .connected then
    (false, c)
  else if c.config.connection_type = .stdio ∧ c.transport ≠ none then
    match probe with
    | .ok _ => (true, c)
    | .error e => (false, { c with status := .error, last_error := some e })
  else
    (true, c)

/-- Lookup in the registry's `Dict[int, MCPServerConnection]`. -/
def connLookup (server_id : Int) : List (Int × MCPServerConnection) → Option MCPServerConnection
  | [] => none
  | (k, c) :: rest => if k = server_id then some c else connLookup server_id rest

/-- Deletion from the registry map (`del self.connections[id]`). -/
def connErase (server_id : Int) (conns : List (Int × MCPServerConnection)) :
    List (Int × MCPServerConnection) :=
  conns.filter (fun p => p.1 ≠ server_id)

/-- `app/models/schemas.py` `ToolExecutionRequest`. -/
structure ToolExecutionRequest where
  server_id : Int
  tool_name : String
  arguments : List (String × PyVal) := []
deriving Repr

/-- `MCPConnectionManager.execute_tool` (`app/mcp/manager.py` lines 174-184):
absent server id yields a not-found record; otherwise delegates to the
connection (whose raised exceptions pass through uncaught). -/
def MCPConnectionManager.execute_tool (conns : List (Int × MCPServerConnection))
    (req : ToolExecutionRequest) (callTool : TransportCall) : Except PyError ExecRecord :=
  match connLookup req.server_id conns with
  | none =>
      .ok ⟨false, none, some ("Server " ++ toString req.server_id ++ " not found")⟩
  | some c => c.execute_tool req.tool_name req.arguments callTool

/-- A fresh connection as built by `MCPServerConnection.__init__`. -/
def freshConnection (cfg : MCPServerConfig) : MCPServerConnection :=
  { config := cfg }

/-- Result of `MCPConnectionManager.add_server`: the updated map, the boolean
returned to the caller, and whether `connection.connect()` was invoked. -/
structure AddServerOutcome where
  connections : List (Int × MCPServerConnection)
  returned : Bool
  connect_invoked : Bool
deriving Repr

/-- `MCPConnectionManager.add_server` (`app/mcp/manager.py` lines 142-155).
An existing entry with the same id is removed first (replace semantics);
`connectOracle` stands for `connection.connect()`, returning the mutated
connection and its boolean result; it is invoked only when the config is
enabled. -/
def MCPConnectionManager.add_server (conns : List (Int × MCPServerConnection))
    (cfg : MCPServerConfig)
    (connectOracle : MCPServerConnection → MCPServerConnection × Bool) : AddServerOutcome :=
  let conns := connErase cfg.id conns
  let connection := freshConnection cfg
  if cfg.enabled then
    let (c', r) := connectOracle connection
    ⟨conns ++ [(cfg.id, c')], r, true⟩
  else
    ⟨conns ++ [(cfg.id, connection)], true, false⟩

/-- `app/ollama/models.py` `ConversationMessage` (the fields the bounded
history logic reads; the timestamp is clock input and is not modelled). -/
structure ConversationMessage where
  role : String
  content : String
deriving DecidableEq, Repr

/-- `AgentService.MAX_MESSAGES_PER_CONVERSATION` (`app/agent/service.py`). -/
def MAX_MESSAGES_PER_CONVERSATION : Nat := 500

/-- Appending to a `collections.deque` with a `maxlen`: the new element goes
on the right and the deque keeps only its rightmost `maxlen` elements. -/
def dequeAppend (maxlen : Nat) (msgs : List ConversationMessage)
    (m : ConversationMessage) : List ConversationMessage :=
  (msgs ++ [m]).drop (msgs.length + 1 - maxlen)

/-- `ConversationContext.add_message` (`app/agent/service.py` lines 753-759):
builds a message and appends it to the `deque(maxlen=MAX_MESSAGES_PER_CONVERSATION)`
ring. -/
def ConversationContext.add_message (msgs : List ConversationMessage)
    (role content : String) : List ConversationMessage :=
  dequeAppend MAX_MESSAGES_PER_CONVERSATION msgs ⟨role, content⟩

/-- The message-trim pass of `AgentService._cleanup_old_conversations`
(`app/agent/service.py` lines 85-94): when the count exceeds the cap, keep
all system-role messages concatenated with the trailing cap-many messages;
otherwise leave the history untouched. -/
def cleanupTrim (msgs : List ConversationMessage) : List ConversationMessage :=
  if msgs.length > MAX_MESSAGES_PER_CONVERSATION then
    msgs.filter (fun m => m.role = "system")
      ++ msgs.drop (msgs.length - MAX_MESSAGES_PER_CONVERSATION)
  else
    msgs

/-- `app/ollama/models.py` `ToolCall`. -/
structure OllamaToolCall where
  tool : String
  arguments : List (String × PyVal)
  id : Option String := none
deriving Repr

/-- `app/ollama/models.py` `AgentResponse` (the fields `generate_response`
produces; `tool_calls = none` in Python is modelled as `[]`, matching the
`tool_calls if tool_calls else None` construction). -/
structure AgentResponse where
  content : String
  tool_calls : List OllamaToolCall
  model_used : String
deriving Repr

/-- The `message` object of a chat-API reply (`response["message"]`). -/
structure ChatMsg where
  content : String
  tool_calls : List OllamaToolCall
deriving Repr

/-- `OllamaModelManager._parse_chat_response` (`app/ollama/manager.py`
lines 487-532): an absent `message` key yields the apologetic
empty-response text, otherwise content and tool calls are taken from the
message. -/
def parse_chat_response (response : Option ChatMsg) (model : String) : AgentResponse :=
  match response with
  | none =>
      { content := "I apologize, but I received an empty response."
        tool_calls := []
        model_used := model }
  | some m =>
      { content := m.content, tool_calls := m.tool_calls, model_used := model }

/-- `app/ollama/models.py` `ConversationContext` (the fields
`generate_response` reads). -/
structure OllamaConversationContext where
  model : String
  system_prompt : Option String := none
deriving Repr

/-- Lookup in `OllamaModelManager.active_conversations`. -/
def convLookup (cid : String) :
    List (String × OllamaConversationContext) → Option OllamaConversationContext
  | [] => none
  | (k, c) :: rest => if k = cid then some c else convLookup cid rest

/-- `OllamaModelManager.generate_response` (`app/ollama/manager.py` lines
236-383).  A missing conversation raises `ValueError` before the guarded
block; `chatOutcome` is the outcome of `self.client.chat_completion`
(`Except.error` = the call raised); any exception inside the guarded block
is caught and converted into an apologetic `AgentResponse`. -/
def OllamaModelManager.generate_response
    (active : List (String × OllamaConversationContext)) (cid : String)
    (chatOutcome : Except String (Option ChatMsg)) : Except PyError AgentResponse :=
  match convLookup cid active with
  | none => .error (.valueError ("Conversation " ++ cid ++ " not found"))
  | some ctx =>
      match chatOutcome with
      | .error e =>
          .ok { content :=
                  "I apologize, but I encountered an error while generating a response: " ++ e
                tool_calls := []
                model_used := ctx.model }
      | .ok response => .ok (parse_chat_response response ctx.model)

/-- An HTTP error raised by the service layer (`fastapi.HTTPException`). -/
structure HTTPException where
  status_code : Nat
  detail : String
deriving DecidableEq, Repr

/-- `OllamaService.delete_conversation` (`app/ollama/service.py` lines
236-246): deletes the manager-side conversation when present, raises a 404
`HTTPException` otherwise.  The store is the list of session ids. -/
def OllamaService.delete_conversation (oActive : List String) (cid : String) :
    Except HTTPException (List String) :=
  if cid ∈ oActive then
    .ok (oActive.filter (fun k => k ≠ cid))
  else
    .error ⟨404, "Conversation " ++ cid ++ " not found"⟩

/-- `app/agent/service.py` `ConversationContext` as the agent's local store
sees it for deletion: the bound LLM-side session handle. -/
structure AgentConversationContext where
  ollama_conversation_id : String
deriving DecidableEq, Repr

/-- Lookup in `AgentService.active_conversations`. -/
def agentConvLookup (cid : String) :
    List (String × AgentConversationContext) → Option AgentConversationContext
  | [] => none
  | (k, c) :: rest => if k = cid then some c else agentConvLookup cid rest

/-- `AgentService.delete_conversation` (`app/agent/service.py` lines
671-688) composed with `OllamaService.delete_conversation`: a missing
local conversation returns `false`; otherwise the Ollama-side deletion
runs first and any exception it raises is caught, logged and turned into a
`false` return — the local entry is deleted only after the Ollama deletion
succeeded.  Returns (returned value, agent store, ollama store). -/
def AgentService.delete_conversation
    (aActive : List (String × AgentConversationContext)) (oActive : List String)
    (cid : String) :
    Bool × List (String × AgentConversationContext) × List String :=
  match agentConvLookup cid aActive with
  | none => (false, aActive, oActive)
  | some ctx =>
      match OllamaService.delete_conversation oActive ctx.ollama_conversation_id with
      | .error _ => (false, aActive, oActive)
      | .ok oActive' =>
          (true, aActive.filter (fun p => p.1 ≠ cid), oActive')

/-- A JSON value as held inside a tool's input schema. -/
inductive JVal where
  | obj (fields : List (String × JVal))
  | arr (items : List JVal)
  | str (s : String)
  | num (n : Int)
  | boolean (b : Bool)
  | null
deriving Repr

/-- `k in d` on a Python dictionary modelled as a key-ordered list. -/
def schemaHasKey (k : String) (d : List (String × JVal)) : Bool :=
  d.any (fun p => p.1 = k)

/-- `del d[k]` on a (copied) Python dictionary with unique keys. -/
def schemaDel (k : String) (d : List (String × JVal)) : List (String × JVal) :=
  d.filter (fun p => p.1 ≠ k)

/-- `d.get(k)` on a schema dictionary. -/
def schemaGet (k : String) : List (String × JVal) → Option JVal
  | [] => none
  | (k', v) :: rest => if k' = k then some v else schemaGet k rest

/-- `d[k] = v` on a Python dictionary: overwrite in place when the key
exists, append otherwise. -/
def schemaSet (k : String) (v : JVal) : List (String × JVal) → List (String × JVal)
  | [] => [(k, v)]
  | (k', v') :: rest =>
      if k' = k then (k', v) :: rest else (k', v') :: schemaSet k v rest

/-- A tool descriptor as stored in `AgentService.available_tools` (built by
`refresh_mcp_tools`): name, description, input schema, owning server id. -/
structure AgentTool where
  name : String
  description : String
  inputSchema : List (String × JVal)
  server_id : Option Int
deriving Repr

/-- The `function` part of an OpenAI-format tool. -/
structure OpenAIFunction where
  name : String
  description : String
  parameters : List (String × JVal)
deriving Repr

/-- An OpenAI-format tool record (its `type` field is always the literal
string `"function"` and is left implicit). -/
structure OpenAITool where
  function : OpenAIFunction
deriving Repr

/-- `AgentService._convert_mcp_tool_to_openai` (`app/agent/service.py` lines
118-139): strips `$schema` and `additionalProperties` from the tool's input
schema and wraps it; it adds no defaults. -/
def AgentService.convert_mcp_tool_to_openai (tool : AgentTool) : OpenAITool :=
  let parameters := tool.inputSchema
  let parameters :=
    if schemaHasKey "$schema" parameters then schemaDel "$schema" parameters
    else parameters
  let parameters :=
    if schemaHasKey "additionalProperties" parameters then
      schemaDel "additionalProperties" parameters
    else parameters
  ⟨⟨tool.name, tool.description, parameters⟩⟩

/-- `AgentService.get_tools_in_openai_format` (`app/agent/service.py` lines
141-151): the list of converted tools handed to the LLM backend, in catalog
order. -/
def AgentService.get_tools_in_openai_format (available_tools : List AgentTool) :
    List OpenAITool :=
  available_tools.map AgentService.convert_mcp_tool_to_openai

/-- The schema-cleaning step of `AgentService._convert_to_openai_format`
(`app/agent/service.py` lines 231-245): strips `$schema` and
`additionalProperties`, forces `required` to a list (defaulting to `[]`)
and defaults `properties` to an empty object. -/
def AgentService.cleanSchemaForOpenAI (input_schema : List (String × JVal)) :
    List (String × JVal) :=
  let cleaned := input_schema
  let cleaned :=
    if schemaHasKey "$schema" cleaned then schemaDel "$schema" cleaned else cleaned
  let cleaned :=
    if schemaHasKey "additionalProperties" cleaned then
      schemaDel "additionalProperties" cleaned
    else cleaned
  let cleaned :=
    if schemaHasKey "required" cleaned then
      match schemaGet "required" cleaned with
      | some (.arr _) => cleaned
      | _ => schemaSet "required" (.arr []) cleaned
    else schemaSet "required" (.arr []) cleaned
  let cleaned :=
    if schemaHasKey "properties" cleaned then cleaned
    else schemaSet "properties" (.obj []) cleaned
  cleaned

/-- `AgentService._convert_to_openai_format` on one tool (the per-element
body of the loop at `app/agent/service.py` lines 221-257); this converter
is defined in the source but is on no call path — tools reach the LLM via
`get_tools_in_openai_format` only. -/
def AgentService.convert_to_openai_format_one (tool : AgentTool) : OpenAITool :=
  ⟨⟨tool.name, tool.description, AgentService.cleanSchemaForOpenAI tool.inputSchema⟩⟩

/-- Python `str(...)` on an optional string (`str(None) = "None"`), as used
when formatting tool payloads and error fields. -/
def optDisplay : Option String → String
  | some s => s
  | none => "None"

/-- Whether a Python value is a dictionary (`isinstance(v, dict)`). -/
def PyVal.isDictB : PyVal → Bool
  | .vdict _ => true
  | _ => false

/-- `app/ollama/models.py` `ToolResult` as produced by
`AgentService._execute_tool_calls` (payloads there are display strings). -/
structure AgentToolResult where
  tool : String
  arguments : List (String × PyVal)
  result : String
  success : Bool
  error : Option String := none
deriving Repr

/-- One element of the `tool_calls` list handed to
`AgentService._execute_tool_calls`: either not a dictionary at all, or a
dictionary of fields. -/
inductive RawToolCall where
  | notDict
  | fields (d : List (String × PyVal))

/-- Constructing a pydantic `ToolResult` whose `arguments` is an arbitrary
runtime value: validation succeeds only when the value is a dictionary,
otherwise pydantic raises a `ValidationError`. -/
def mkToolResultChecked (tool : String) (argumentsV : PyVal) (result : String)
    (success : Bool) (error : Option String) : Except String AgentToolResult :=
  match argumentsV with
  | .vdict d => .ok ⟨tool, d, result, success, error⟩
  | _ => .error "ValidationError: arguments is not a valid dictionary"

/-- The observable outcome of one `asyncio.wait_for(...)`-bounded dispatch:
either the timeout fired, or the dispatch ran against the transport. -/
inductive DispatchEvent where
  | timeout
  | completes (callTool : TransportCall)

/-- One iteration of the `for tool_call in tool_calls` loop of
`AgentService._execute_tool_calls` (`app/agent/service.py` lines 449-599),
following its branches in source order: shape validation, tool-name
validation, argument validation, catalog lookup, server-id check, dispatch
through the connection manager bounded by the 60s timeout, and the
normalization of every failure into a local error `ToolResult`. -/
def AgentService.execute_one_tool_call (available : List AgentTool)
    (conns : List (Int × MCPServerConnection)) (tc : RawToolCall)
    (ev : DispatchEvent) : Except String AgentToolResult :=
  match tc with
  | .notDict =>
      .ok ⟨"invalid", [], "Error: Invalid tool call format", false,
           some "Invalid tool call format"⟩
  | .fields d =>
      let tool_nameV := (dictGet "tool" d).getD .vnone
      let argumentsV := (dictGet "arguments" d).getD (.vdict [])
      match tool_nameV with
      | .vstr s =>
          if s = "" then
            mkToolResultChecked "invalid" argumentsV
              "Error: Tool name is required and must be a string" false
              (some "Invalid tool name")
          else
            match argumentsV with
            | .vdict args =>
                match available.find? (fun t => t.name = s) with
                | none =>
                    .ok ⟨s, args, "Error: Tool '" ++ s ++ "' not found in available tools",
                         false, some "Tool not found"⟩
                | some tool_info =>
                    match tool_info.server_id with
                    | none =>
                        .ok ⟨s, args, "Error: Tool '" ++ s ++ "' has no server_id configured",
                             false,
                             some "No server ID configured - tool discovery may be incomplete"⟩
                    | some sid =>
                        match ev with
                        | .timeout =>
                            .ok ⟨s, args, "Tool execution timed out after 60 seconds",
                                 false, some "Tool execution timeout"⟩
                        | .completes callTool =>
                            match MCPConnectionManager.execute_tool conns ⟨sid, s, args⟩ callTool with
                            | .error e =>
                                .ok ⟨s, args, "Error executing tool via MCP: " ++ e.msg,
                                     false, some e.msg⟩
                            | .ok er =>
                                if er.success then
                                  .ok ⟨s, args, optDisplay er.result, true, none⟩
                                else
                                  .ok ⟨s, args,
                                       "MCP tool execution failed: " ++ optDisplay er.error,
                                       false, er.error⟩
            | _ =>
                .ok ⟨s, [], "Error: Tool arguments must be a dictionary", false,
                     some "Invalid tool arguments"⟩
      | _ =>
          mkToolResultChecked "invalid" argumentsV
            "Error: Tool name is required and must be a string" false
            (some "Invalid tool name")

/-- The whole `for` loop, accumulating one result per call; a raised
pydantic `ValidationError` aborts the loop (it is only caught by the
function's outer handler).  `oracle` gives each dispatch's observable
event, indexed by call position. -/
def AgentService.execute_tool_calls_loop (available : List AgentTool)
    (conns : List (Int × MCPServerConnection)) (oracle : Nat → DispatchEvent) :
    Nat → List RawToolCall → Except String (List AgentToolResult)
  | _, [] => .ok []
  | i, tc :: rest =>
      match AgentService.execute_one_tool_call available conns tc (oracle i) with
      | .error e => .error e
      | .ok r =>
          match AgentService.execute_tool_calls_loop available conns oracle (i + 1) rest with
          | .error e => .error e
          | .ok rs => .ok (r :: rs)

/-- `AgentService._execute_tool_calls` (`app/agent/service.py` lines
449-599): runs the loop; the outer `except Exception` turns any escaped
exception into an empty result list. -/
def AgentService.execute_tool_calls (available : List AgentTool)
    (conns : List (Int × MCPServerConnection)) (calls : List RawToolCall)
    (oracle : Nat → DispatchEvent) : List AgentToolResult :=
  match AgentService.execute_tool_calls_loop available conns oracle 0 calls with
  | .ok rs => rs
  | .error _ => []

/-- A tool call whose processing cannot raise: any call except a dictionary
whose `tool` field is missing, non-string or empty while its `arguments`
field is present and not a dictionary (only there does the loop hand a
non-dictionary to the pydantic `ToolResult` constructor).  Every call
produced by `_parse_chat_response` — a dictionary with a string `tool` and
a dictionary `arguments` — satisfies this. -/
def RawToolCall.safeB : RawToolCall → Bool
  | .notDict => true
  | .fields d =>
      (match (dictGet "tool" d).getD .vnone with
       | .vstr s => s ≠ ""
       | _ => false)
      || ((dictGet "arguments" d).getD (.vdict [])).isDictB

/-- The `for i, result in enumerate(tool_results, 1)` loop of
`AgentService._get_followup_response` (`app/agent/service.py` lines
615-627), accumulating the message text exactly as the source's `+=`
chain does. -/
def AgentService.build_tool_results_message_loop (i : Nat) (acc : String) :
    List AgentToolResult → String
  | [] => acc
  | r :: rest =>
      let status := if r.success then "✅ Success" else "❌ Failed"
      let acc := acc ++ (toString i ++ ". " ++ r.tool ++ ": " ++ status ++ "\n")
      let acc :=
        if r.success then
          let result_text := r.result
          let result_text :=
            if result_text.length > 500 then result_text.take 500 ++ "... (truncated)"
            else result_text
          acc ++ ("   Result: " ++ result_text ++ "\n")
        else
          acc ++ ("   Error: " ++ optDisplay r.error ++ "\n")
      let acc := acc ++ "\n"
      AgentService.build_tool_results_message_loop (i + 1) acc rest

/-- The synthetic follow-up message built by
`AgentService._get_followup_response` before it is sent to the LLM. -/
def AgentService.build_tool_results_message (rs : List AgentToolResult) : String :=
  AgentService.build_tool_results_message_loop 1 "Tool execution completed. Results:\n" rs

/-- Spec-side description of one enumerated follow-up item, written from the
claim's words: an index-marked line with a ✅/❌ marker, then the payload —
truncated to its first 500 characters plus "... (truncated)" when longer
than 500 — for a success, or the error text for a failure. -/
def followupItemSpec (i : Nat) (r : AgentToolResult) : String :=
  toString i ++ ". " ++ r.tool ++ ": "
    ++ (if r.success then "✅ Success" else "❌ Failed") ++ "\n"
    ++ (if r.success then
          "   Result: "
            ++ (if r.result.length > 500 then r.result.take 500 ++ "... (truncated)"
                else r.result)
            ++ "\n"
        else
          "   Error: " ++ optDisplay r.error ++ "\n")
    ++ "\n"

/-- Spec-side enumeration of items `i`, `i+1`, ... over a result list. -/
def followupItemsSpec (i : Nat) : List AgentToolResult → String
  | [] => ""
  | r :: rest => followupItemSpec i r ++ followupItemsSpec (i + 1) rest

/-- The result record of `OllamaService.send_message` (`app/ollama/service.py`
lines 128-152): the parsed response, plus the tool calls and the
`requires_tool_execution` flag set only when tool calls are present. -/
structure SendMessageResult where
  response : AgentResponse
  tool_calls : List OllamaToolCall
  requires_tool_execution : Bool
deriving Repr

/-- `OllamaService.send_message` (`app/ollama/service.py` lines 119-152):
wraps `generate_response`, converting a raised `ValueError` into a 404
`HTTPException` and any other exception into a 500. -/
def OllamaService.send_message (active : List (String × OllamaConversationContext))
    (cid : String) (chatOutcome : Except String (Option ChatMsg)) :
    Except HTTPException SendMessageResult :=
  match OllamaModelManager.generate_response active cid chatOutcome with
  | .error (.valueError m) => .error ⟨404, m⟩
  | .error (.runtimeError m) => .error ⟨500, "Failed to send message: " ++ m⟩
  | .ok r => .ok ⟨r, r.tool_calls, !r.tool_calls.isEmpty⟩

/-! ## Helper lemmas -/

theorem connErase_key_ne (server_id : Int) (conns : List (Int × MCPServerConnection)) :
    ∀ p ∈ connErase server_id conns, p.1 ≠ server_id := by
  intro p hp
  have := List.mem_filter.mp hp
  simpa using this.2

theorem connLookup_append_last (k : Int) (c : MCPServerConnection)
    (l : List (Int × MCPServerConnection)) (h : ∀ p ∈ l, p.1 ≠ k) :
    connLookup k (l ++ [(k, c)]) = some c := by
  induction l with
  | nil => simp [connLookup]
  | cons hd tl ih =>
      have hhd : hd.1 ≠ k := h hd (by simp)
      have htl : ∀ p ∈ tl, p.1 ≠ k := fun p hp => h p (by simp [hp])
      simpa [connLookup, hhd] using ih htl

/-! ## Claims -/

/-- C6: for every server id with no registered connection, the registry's
`execute_tool` returns `{success: false, error: "Server <id> not found"}`
and never raises (the result is an `Except.ok`, not a raised exception). -/
theorem C6_registry_execute_tool_not_found (conns : List (Int × MCPServerConnection))
    (req : ToolExecutionRequest) (callTool : TransportCall)
    (h : connLookup req.server_id conns = none) :
    MCPConnectionManager.execute_tool conns req callTool =
      .ok ⟨false, none, some ("Server " ++ toString req.server_id ++ " not found")⟩ := by
  unfold MCPConnectionManager.execute_tool
  rw [h]

theorem C6_registry_execute_tool_not_found_witness :
    MCPConnectionManager.execute_tool [] ⟨1, "t", []⟩ (fun _ _ => .ok "r") =
      .ok ⟨false, none, some ("Server " ++ toString (1 : Int) ++ " not found")⟩ :=
  C6_registry_execute_tool_not_found [] ⟨1, "t", []⟩ (fun _ _ => .ok "r") rfl

/-- C9: `add_server` with a disabled config registers a fresh connection in
the map, leaves it Disconnected with a null transport, never invokes
`connect`, and returns `true`. -/
theorem C9_add_server_disabled (conns : List (Int × MCPServerConnection))
    (cfg : MCPServerConfig)
    (connectOracle : MCPServerConnection → MCPServerConnection × Bool)
    (h : cfg.enabled = false) :
    (MCPConnectionManager.add_server conns cfg connectOracle).returned = true ∧
    (MCPConnectionManager.add_server conns cfg connectOracle).connect_invoked = false ∧
    connLookup cfg.id (MCPConnectionManager.add_server conns cfg connectOracle).connections
      = some (freshConnection cfg) ∧
    (freshConnection cfg).status = .disconnected ∧
    (freshConnection cfg).transport = none := by
  unfold MCPConnectionManager.add_server
  rw [h]
  refine ⟨rfl, rfl, ?_, rfl, rfl⟩
  exact connLookup_append_last cfg.id (freshConnection cfg) _ (connErase_key_ne cfg.id conns)

theorem C9_add_server_disabled_witness :
    (MCPConnectionManager.add_server [] ⟨7, "s", .stdio, none, [], none, false⟩
        (fun c => (c, true))).returned = true ∧
    (MCPConnectionManager.add_server [] ⟨7, "s", .stdio, none, [], none, false⟩
        (fun c => (c, true))).connect_invoked = false ∧
    connLookup 7 (MCPConnectionManager.add_server [] ⟨7, "s", .stdio, none, [], none, false⟩
        (fun c => (c, true))).connections
      = some (freshConnection ⟨7, "s", .stdio, none, [], none, false⟩) ∧
    (freshConnection ⟨7, "s", .stdio, none, [], none, false⟩).status = .disconnected ∧
    (freshConnection ⟨7, "s", .stdio, none, [], none, false⟩).transport = none :=
  C9_add_server_disabled [] ⟨7, "s", .stdio, none, [], none, false⟩ (fun c => (c, true)) rfl

/-- C10: `health_check` on a connection whose status is not Connected
returns `false` and leaves the whole connection state — status, last
error, transport, tool catalog — unchanged. -/
theorem C10_health_check_not_connected (c : MCPServerConnection)
    (probe : Except String (List MCPTool)) (h : c.status ≠ .connected) :
    c.health_check probe = (false, c) := by
  unfold MCPServerConnection.health_check
  simp [h]

theorem C10_health_check_not_connected_witness :
    (freshConnection ⟨1, "s", .stdio, none, [], none, true⟩).health_check
        (.error "probe failed")
      = (false, freshConnection ⟨1, "s", .stdio, none, [], none, true⟩) :=
  C10_health_check_not_connected _ _ (by simp [freshConnection])

/-- C1 counterexample: on a freshly-constructed (Disconnected) connection,
`execute_tool` raises a `RuntimeError` instead of returning a
`{success: false}` record — refuting "executeTool never raises to its
caller". -/
theorem C1_counterexample :
    MCPServerConnection.execute_tool
        (freshConnection ⟨1, "demo", .stdio, none, [], none, true⟩) "t" []
        (fun _ _ => .ok "r")
      = .error (.runtimeError "Server demo is not connected") := by
  rfl

/-- C1 (amended): `execute_tool` raises a `RuntimeError` when the status is
not Connected or the transport is null, raises a `ValueError` when the
tool name is absent from the local catalog, and only once the transport
call is reached does it never raise: a transport failure is normalized
into a `{success: false, error}` record and a transport success into a
`{success: true, result}` record. -/
theorem C1_execute_tool_behaviour (c : MCPServerConnection) (tool_name : String)
    (arguments : List (String × PyVal)) (callTool : TransportCall) :
    (c.status ≠ .connected ∨ c.transport = none →
      c.execute_tool tool_name arguments callTool
        = .error (.runtimeError ("Server " ++ c.config.name ++ " is not connected"))) ∧
    (c.status = .connected → c.transport ≠ none →
      c.available_tools.any (fun t => t.name = tool_name) = false →
      c.execute_tool tool_name arguments callTool
        = .error (.valueError
            ("Tool " ++ tool_name ++ " not available on server " ++ c.config.name))) ∧
    (c.status = .connected → c.transport ≠ none →
      c.available_tools.any (fun t => t.name = tool_name) = true →
      c.execute_tool tool_name arguments callTool
        = .ok (match callTool tool_name arguments with
               | .ok r => ⟨true, some r, none⟩
               | .error e => ⟨false, none, some e⟩)) := by
  refine ⟨?_, ?_, ?_⟩
  · intro h
    unfold MCPServerConnection.execute_tool
    simp [h]
  · intro h1 h2 h3
    unfold MCPServerConnection.execute_tool
    simp [h1, h2, h3]
  · intro h1 h2 h3
    unfold MCPServerConnection.execute_tool
    simp [h1, h2, h3]
    cases callTool tool_name arguments <;> rfl

theorem C1_execute_tool_behaviour_witness :
    MCPServerConnection.execute_tool
        { config := ⟨1, "demo", .stdio, none, [], none, true⟩
          transport := some ()
          status := .connected
          last_error := none
          available_tools := [⟨"t"⟩] } "t" []
        (fun _ _ => .error "boom")
      = .ok ⟨false, none, some "boom"⟩ :=
  (C1_execute_tool_behaviour
      { config := ⟨1, "demo", .stdio, none, [], none, true⟩
        transport := some ()
        status := .connected
        last_error := none
        available_tools := [⟨"t"⟩] } "t" []
      (fun _ _ => .error "boom")).2.2 rfl (by simp) (by simp)

/-- C2 counterexample: a conversation at capacity (500 messages) whose
oldest message has role `system`; appending one more message evicts that
system message — refuting both "the oldest non-system message is evicted
first" and "every system message survives". -/
theorem C2_counterexample :
    (⟨"system", "sys"⟩ : ConversationMessage) ∉
      ConversationContext.add_message
        (⟨"system", "sys"⟩ :: List.replicate 499 ⟨"user", "u"⟩) "user" "u2" := by
  have h1 :
      ConversationContext.add_message
          (⟨"system", "sys"⟩ :: List.replicate 499 ⟨"user", "u"⟩) "user" "u2"
        = List.replicate 499 ⟨"user", "u"⟩ ++ [⟨"user", "u2"⟩] := by
    unfold ConversationContext.add_message dequeAppend MAX_MESSAGES_PER_CONVERSATION
    rw [List.length_cons, List.length_replicate, List.cons_append]
    norm_num
  rw [h1]
  intro hmem
  rcases List.mem_append.mp hmem with hmem | hmem
  · exact absurd (List.eq_of_mem_replicate hmem) (by decide)
  · exact absurd (List.mem_singleton.mp hmem) (by decide)

/-- C2 (amended): the message history is a ring of capacity 500 kept by a
`deque(maxlen=...)`: at capacity, appending evicts the oldest message
regardless of role — system messages included — and the reap pass's trim
branch is a no-op on any history within the cap, so it never restores
them. -/
theorem C2_ring_eviction (msgs : List ConversationMessage) (role content : String)
    (h : msgs.length = MAX_MESSAGES_PER_CONVERSATION) :
    ConversationContext.add_message msgs role content = msgs.tail ++ [⟨role, content⟩] ∧
    (ConversationContext.add_message msgs role content).length
      = MAX_MESSAGES_PER_CONVERSATION ∧
    cleanupTrim msgs = msgs := by
  have hpos : 0 < msgs.length := by rw [h]; norm_num [MAX_MESSAGES_PER_CONVERSATION]
  have hmain :
      ConversationContext.add_message msgs role content = msgs.tail ++ [⟨role, content⟩] := by
    unfold ConversationContext.add_message dequeAppend
    rw [h]
    have hdrop : MAX_MESSAGES_PER_CONVERSATION + 1 - MAX_MESSAGES_PER_CONVERSATION = 1 := by
      simp
    rw [hdrop, List.drop_append_of_le_length (by omega), List.drop_one]
  refine ⟨hmain, ?_, ?_⟩
  · rw [hmain]
    simp [List.length_tail, h]
    omega
  · unfold cleanupTrim
    rw [h]
    simp

theorem C2_ring_eviction_witness :
    ConversationContext.add_message
        (List.replicate 500 (⟨"user", "u"⟩ : ConversationMessage)) "user" "u2"
      = (List.replicate 500 (⟨"user", "u"⟩ : ConversationMessage)).tail ++ [⟨"user", "u2"⟩] ∧
    (ConversationContext.add_message
        (List.replicate 500 (⟨"user", "u"⟩ : ConversationMessage)) "user" "u2").length
      = MAX_MESSAGES_PER_CONVERSATION ∧
    cleanupTrim (List.replicate 500 (⟨"user", "u"⟩ : ConversationMessage))
      = List.replicate 500 (⟨"user", "u"⟩ : ConversationMessage) :=
  C2_ring_eviction (List.replicate 500 ⟨"user", "u"⟩) "user" "u2"
    (by rw [List.length_replicate]; rfl)

/-- C3 counterexample: with an existing conversation, a failure raised by
the chat request is returned as a normal, successful `AgentResponse`
carrying an apologetic assistant message — not propagated as an error.
This refutes "any failure inside the LLM collaborator call surfaces as a
propagated error to the turn's caller". -/
theorem C3_counterexample :
    OllamaModelManager.generate_response [("c", ⟨"m", none⟩)] "c" (.error "boom")
      = .ok ⟨"I apologize, but I encountered an error while generating a response: boom",
             [], "m"⟩ := by
  rfl

/-- C3 (amended): a failure inside the chat request is caught by
`generate_response` and converted into a normal assistant response whose
content embeds the error text; the service layer then reports it as a
successful send with no tool calls.  Only a missing conversation is
propagated as an error (a `ValueError`, mapped to a 404 `HTTPException`
by the service). -/
theorem C3_chat_failure_becomes_response
    (active : List (String × OllamaConversationContext)) (cid : String)
    (ctx : OllamaConversationContext) (e : String)
    (h : convLookup cid active = some ctx) :
    OllamaModelManager.generate_response active cid (.error e)
      = .ok ⟨"I apologize, but I encountered an error while generating a response: " ++ e,
             [], ctx.model⟩ ∧
    OllamaService.send_message active cid (.error e)
      = .ok ⟨⟨"I apologize, but I encountered an error while generating a response: " ++ e,
              [], ctx.model⟩, [], false⟩ ∧
    (∀ cid' chatOutcome, convLookup cid' active = none →
      OllamaModelManager.generate_response active cid' chatOutcome
        = .error (.valueError ("Conversation " ++ cid' ++ " not found")) ∧
      OllamaService.send_message active cid' chatOutcome
        = .error ⟨404, "Conversation " ++ cid' ++ " not found"⟩) := by
  have hgen :
      OllamaModelManager.generate_response active cid (.error e)
        = .ok ⟨"I apologize, but I encountered an error while generating a response: " ++ e,
               [], ctx.model⟩ := by
    unfold OllamaModelManager.generate_response
    rw [h]
  refine ⟨hgen, ?_, ?_⟩
  · unfold OllamaService.send_message
    rw [hgen]
    rfl
  · intro cid' chatOutcome h'
    have hgen' :
        OllamaModelManager.generate_response active cid' chatOutcome
          = .error (.valueError ("Conversation " ++ cid' ++ " not found")) := by
      unfold OllamaModelManager.generate_response
      rw [h']
    refine ⟨hgen', ?_⟩
    unfold OllamaService.send_message
    rw [hgen']

theorem C3_chat_failure_becomes_response_witness :
    OllamaModelManager.generate_response [("c", ⟨"m", none⟩)] "c" (.error "down")
      = .ok ⟨"I apologize, but I encountered an error while generating a response: " ++ "down",
             [], "m"⟩ :=
  (C3_chat_failure_becomes_response [("c", ⟨"m", none⟩)] "c" ⟨"m", none⟩ "down" rfl).1

/-- C5 counterexample: a conversation whose LLM-side session is absent (so
the collaborator close raises): `delete_conversation` returns `false` and
the conversation is still in the local store — refuting "the conversation
is removed from the store regardless of the collaborator outcome". -/
theorem C5_counterexample :
    AgentService.delete_conversation [("a", ⟨"o1"⟩)] [] "a"
      = (false, [("a", ⟨"o1"⟩)], []) := by
  rfl

/-- C5 (amended): `delete_conversation` asks the LLM collaborator to close
the session first and removes the conversation from the local store only
when that close succeeds; when the close fails, the failure is caught
(logged) and the method returns `false` with both stores unchanged. -/
theorem C5_delete_conversation
    (aActive : List (String × AgentConversationContext)) (oActive : List String)
    (cid : String) (ctx : AgentConversationContext)
    (h : agentConvLookup cid aActive = some ctx) :
    (ctx.ollama_conversation_id ∈ oActive →
      AgentService.delete_conversation aActive oActive cid
        = (true, aActive.filter (fun p => p.1 ≠ cid),
           oActive.filter (fun k => k ≠ ctx.ollama_conversation_id))) ∧
    (ctx.ollama_conversation_id ∉ oActive →
      AgentService.delete_conversation aActive oActive cid
        = (false, aActive, oActive)) := by
  constructor
  · intro hmem
    unfold AgentService.delete_conversation
    rw [h]
    unfold OllamaService.delete_conversation
    simp [hmem]
  · intro hmem
    unfold AgentService.delete_conversation
    rw [h]
    unfold OllamaService.delete_conversation
    simp [hmem]

theorem C5_delete_conversation_witness :
    AgentService.delete_conversation [("a", ⟨"o1"⟩)] ["o1"] "a"
      = (true, ([("a", (⟨"o1"⟩ : AgentConversationContext))]).filter (fun p => p.1 ≠ "a"),
         (["o1"]).filter (fun k => k ≠ "o1")) :=
  (C5_delete_conversation [("a", ⟨"o1"⟩)] ["o1"] "a" ⟨"o1"⟩ rfl).1 (by simp)


theorem schemaHasKey_eq_isSome (k : String) (l : List (String × JVal)) :
    schemaHasKey k l = (schemaGet k l).isSome := by
  induction l with
  | nil => rfl
  | cons hd tl ih =>
      obtain ⟨k1, v1⟩ := hd
      by_cases h : k1 = k
      · simp [schemaHasKey, schemaGet, h]
      · simp only [schemaHasKey, schemaGet, List.any_cons, h, decide_eq_true_eq,
          if_false, Bool.false_or, decide_False]
        exact ih

theorem schemaGet_del_self (k : String) (l : List (String × JVal)) :
    schemaGet k (schemaDel k l) = none := by
  induction l with
  | nil => rfl
  | cons hd tl ih =>
      obtain ⟨k1, v1⟩ := hd
      by_cases h : k1 = k
      · simpa [schemaDel, h] using ih
      · simpa [schemaDel, schemaGet, h] using ih

theorem schemaGet_del_ne (k k' : String) (l : List (String × JVal)) (h : k' ≠ k) :
    schemaGet k' (schemaDel k l) = schemaGet k' l := by
  induction l with
  | nil => rfl
  | cons hd tl ih =>
      obtain ⟨k1, v1⟩ := hd
      by_cases hk : k1 = k
      · have hk1 : ¬ k1 = k' := by rw [hk]; exact h.symm
        have h1 : schemaDel k ((k1, v1) :: tl) = schemaDel k tl := by
          simp [schemaDel, hk]
        have h2 : schemaGet k' ((k1, v1) :: tl) = schemaGet k' tl := by
          simp [schemaGet, hk1]
        rw [h1, h2, ih]
      · have h1 : schemaDel k ((k1, v1) :: tl) = (k1, v1) :: schemaDel k tl := by
          simp [schemaDel, hk]
        by_cases hk' : k1 = k'
        · rw [h1]; simp [schemaGet, hk']
        · rw [h1]; simp [schemaGet, hk', ih]

theorem schemaGet_condDel_self (k : String) (l : List (String × JVal)) :
    schemaGet k (if schemaHasKey k l then schemaDel k l else l) = none := by
  by_cases h : schemaHasKey k l
  · simp [h, schemaGet_del_self]
  · have heq := schemaHasKey_eq_isSome k l
    rw [if_neg h]
    cases hg : schemaGet k l with
    | none => rfl
    | some v => rw [hg] at heq; simp [heq] at h

theorem schemaGet_condDel_ne (k k' : String) (l : List (String × JVal)) (h : k' ≠ k) :
    schemaGet k' (if schemaHasKey k l then schemaDel k l else l) = schemaGet k' l := by
  by_cases hk : schemaHasKey k l
  · simp [hk, schemaGet_del_ne k k' l h]
  · simp [hk]

theorem schemaGet_set_self (k : String) (v : JVal) (l : List (String × JVal)) :
    schemaGet k (schemaSet k v l) = some v := by
  induction l with
  | nil => simp [schemaSet, schemaGet]
  | cons hd tl ih =>
      obtain ⟨k1, v1⟩ := hd
      by_cases hk : k1 = k
      · simp [schemaSet, schemaGet, hk]
      · simp [schemaSet, schemaGet, hk, ih]

theorem schemaGet_set_ne (k k' : String) (v : JVal) (l : List (String × JVal))
    (h : k' ≠ k) :
    schemaGet k' (schemaSet k v l) = schemaGet k' l := by
  induction l with
  | nil => simp [schemaSet, schemaGet, h.symm]
  | cons hd tl ih =>
      obtain ⟨k1, v1⟩ := hd
      by_cases hk : k1 = k
      · have hk1 : ¬ k1 = k' := by rw [hk]; exact h.symm
        simp [schemaSet, schemaGet, hk, hk1, h.symm]
      · by_cases hk' : k1 = k'
        · simp [schemaSet, schemaGet, hk, hk', h]
        · simp [schemaSet, schemaGet, hk, hk', ih]

theorem schemaHasKey_set_self (k : String) (v : JVal) (l : List (String × JVal)) :
    schemaHasKey k (schemaSet k v l) = true := by
  rw [schemaHasKey_eq_isSome, schemaGet_set_self]
  rfl

theorem schemaHasKey_set_ne (k k' : String) (v : JVal) (l : List (String × JVal))
    (h : k' ≠ k) :
    schemaHasKey k' (schemaSet k v l) = schemaHasKey k' l := by
  rw [schemaHasKey_eq_isSome, schemaGet_set_ne k k' v l h, ← schemaHasKey_eq_isSome]

theorem requiredStep_hasKey (s2 : List (String × JVal)) :
    schemaHasKey "required"
        (if schemaHasKey "required" s2 then
          match schemaGet "required" s2 with
          | some (JVal.arr _) => s2
          | _ => schemaSet "required" (JVal.arr []) s2
        else schemaSet "required" (JVal.arr []) s2) = true := by
  by_cases hk : schemaHasKey "required" s2
  · rw [if_pos hk]
    cases hg : schemaGet "required" s2 with
    | none => exact schemaHasKey_set_self _ _ _
    | some v =>
        cases v with
        | arr items => exact hk
        | obj fields => exact schemaHasKey_set_self _ _ _
        | str s => exact schemaHasKey_set_self _ _ _
        | num n => exact schemaHasKey_set_self _ _ _
        | boolean b => exact schemaHasKey_set_self _ _ _
        | null => exact schemaHasKey_set_self _ _ _
  · rw [if_neg hk]
    exact schemaHasKey_set_self _ _ _

theorem propertiesStep_preserves (s3 : List (String × JVal))
    (h : schemaHasKey "required" s3 = true) :
    schemaHasKey "properties"
        (if schemaHasKey "properties" s3 then s3
         else schemaSet "properties" (JVal.obj []) s3) = true ∧
    schemaHasKey "required"
        (if schemaHasKey "properties" s3 then s3
         else schemaSet "properties" (JVal.obj []) s3) = true := by
  by_cases hp : schemaHasKey "properties" s3
  · rw [if_pos hp]
    exact ⟨hp, h⟩
  · rw [if_neg hp]
    refine ⟨schemaHasKey_set_self _ _ _, ?_⟩
    rw [schemaHasKey_set_ne _ _ _ _ (by decide)]
    exact h

theorem cleanSchema_has_defaults (schema : List (String × JVal)) :
    schemaHasKey "properties" (AgentService.cleanSchemaForOpenAI schema) = true ∧
    schemaHasKey "required" (AgentService.cleanSchemaForOpenAI schema) = true := by
  unfold AgentService.cleanSchemaForOpenAI
  exact propertiesStep_preserves _ (requiredStep_hasKey _)

/-- C4 counterexample: a tool whose input schema is empty; the conversion
actually handed to the LLM backend (`_convert_mcp_tool_to_openai` via
`get_tools_in_openai_format`) produces a parameters object with neither a
`properties` nor a `required` key — refuting "always contains a
`properties` key ... and a `required` key ... even when the source tool's
schema lacks them". -/
theorem C4_counterexample :
    schemaHasKey "properties"
        ((AgentService.convert_mcp_tool_to_openai ⟨"t", "d", [], some 1⟩).function.parameters)
      = false ∧
    schemaHasKey "required"
        ((AgentService.convert_mcp_tool_to_openai ⟨"t", "d", [], some 1⟩).function.parameters)
      = false :=
  ⟨rfl, rfl⟩

/-- C4 (amended): the normalization on the path that hands schemas to the
LLM backend strips the `$schema` and `additionalProperties` fields and
keeps every other key unchanged — so `properties` and `required` are
present only when the source schema had them.  The `properties`/`required`
defaulting described by the spec exists, but only in the separate
`_convert_to_openai_format` converter, which no caller uses. -/
theorem C4_schema_normalization (tool : AgentTool) :
    schemaGet "$schema"
        ((AgentService.convert_mcp_tool_to_openai tool).function.parameters) = none ∧
    schemaGet "additionalProperties"
        ((AgentService.convert_mcp_tool_to_openai tool).function.parameters) = none ∧
    (∀ k, k ≠ "$schema" → k ≠ "additionalProperties" →
      schemaGet k ((AgentService.convert_mcp_tool_to_openai tool).function.parameters)
        = schemaGet k tool.inputSchema) ∧
    (∀ schema, schemaHasKey "properties" (AgentService.cleanSchemaForOpenAI schema) = true ∧
               schemaHasKey "required" (AgentService.cleanSchemaForOpenAI schema) = true) := by
  refine ⟨?_, ?_, ?_, fun schema => cleanSchema_has_defaults schema⟩
  · show schemaGet "$schema"
        (if schemaHasKey "additionalProperties" _ then schemaDel "additionalProperties" _
         else _) = none
    rw [schemaGet_condDel_ne _ _ _ (by decide)]
    exact schemaGet_condDel_self _ _
  · exact schemaGet_condDel_self _ _
  · intro k h1 h2
    show schemaGet k
        (if schemaHasKey "additionalProperties" _ then schemaDel "additionalProperties" _
         else _) = _
    rw [schemaGet_condDel_ne _ _ _ h2, schemaGet_condDel_ne _ _ _ h1]

theorem C4_schema_normalization_witness :
    schemaGet "properties"
        ((AgentService.convert_mcp_tool_to_openai
            ⟨"t", "d", [("properties", .obj []), ("$schema", .str "uri")], some 1⟩
          ).function.parameters)
      = schemaGet "properties" [("properties", JVal.obj []), ("$schema", JVal.str "uri")] :=
  (C4_schema_normalization
      ⟨"t", "d", [("properties", .obj []), ("$schema", .str "uri")], some 1⟩).2.2.1
    "properties" (by decide) (by decide)

theorem execute_one_tool_call_safe_isOk (available : List AgentTool)
    (conns : List (Int × MCPServerConnection)) (tc : RawToolCall) (ev : DispatchEvent)
    (hsafe : RawToolCall.safeB tc = true) :
    ∃ r, AgentService.execute_one_tool_call available conns tc ev = .ok r := by
  cases tc with
  | notDict => exact ⟨_, rfl⟩
  | fields d =>
      unfold AgentService.execute_one_tool_call
      unfold RawToolCall.safeB at hsafe
      dsimp only at hsafe ⊢
      cases htool : (dictGet "tool" d).getD .vnone with
      | vstr s =>
          rw [htool] at hsafe
          dsimp only at hsafe ⊢
          by_cases hs : s = ""
          · subst hs
            rw [if_pos rfl]
            simp only [ne_eq, not_true_eq_false, decide_False, Bool.false_or] at hsafe
            cases hargs : (dictGet "arguments" d).getD (.vdict []) with
            | vdict args => exact ⟨_, rfl⟩
            | vstr t => rw [hargs] at hsafe; simp [PyVal.isDictB] at hsafe
            | vnone => rw [hargs] at hsafe; simp [PyVal.isDictB] at hsafe
            | vother => rw [hargs] at hsafe; simp [PyVal.isDictB] at hsafe
          · rw [if_neg hs]
            cases hargs : (dictGet "arguments" d).getD (.vdict []) with
            | vdict args =>
                dsimp only
                cases hfind : available.find? (fun t => t.name = s) with
                | none => exact ⟨_, rfl⟩
                | some tool_info =>
                    dsimp only
                    cases hsid : tool_info.server_id with
                    | none => exact ⟨_, rfl⟩
                    | some sid =>
                        dsimp only
                        cases ev with
                        | timeout => exact ⟨_, rfl⟩
                        | completes callTool =>
                            dsimp only
                            cases hexec :
                                MCPConnectionManager.execute_tool conns
                                  ⟨sid, s, args⟩ callTool with
                            | error e => exact ⟨_, rfl⟩
                            | ok er =>
                                dsimp only
                                by_cases hsuc : er.success = true
                                · rw [if_pos hsuc]; exact ⟨_, rfl⟩
                                · rw [if_neg hsuc]; exact ⟨_, rfl⟩
            | vstr t => exact ⟨_, rfl⟩
            | vnone => exact ⟨_, rfl⟩
            | vother => exact ⟨_, rfl⟩
      | vdict dd =>
          rw [htool] at hsafe
          dsimp only at hsafe ⊢
          simp only [Bool.false_or] at hsafe
          cases hargs : (dictGet "arguments" d).getD (.vdict []) with
          | vdict args => exact ⟨_, rfl⟩
          | vstr t => rw [hargs] at hsafe; simp [PyVal.isDictB] at hsafe
          | vnone => rw [hargs] at hsafe; simp [PyVal.isDictB] at hsafe
          | vother => rw [hargs] at hsafe; simp [PyVal.isDictB] at hsafe
      | vnone =>
          rw [htool] at hsafe
          dsimp only at hsafe ⊢
          simp only [Bool.false_or] at hsafe
          cases hargs : (dictGet "arguments" d).getD (.vdict []) with
          | vdict args => exact ⟨_, rfl⟩
          | vstr t => rw [hargs] at hsafe; simp [PyVal.isDictB] at hsafe
          | vnone => rw [hargs] at hsafe; simp [PyVal.isDictB] at hsafe
          | vother => rw [hargs] at hsafe; simp [PyVal.isDictB] at hsafe
      | vother =>
          rw [htool] at hsafe
          dsimp only at hsafe ⊢
          simp only [Bool.false_or] at hsafe
          cases hargs : (dictGet "arguments" d).getD (.vdict []) with
          | vdict args => exact ⟨_, rfl⟩
          | vstr t => rw [hargs] at hsafe; simp [PyVal.isDictB] at hsafe
          | vnone => rw [hargs] at hsafe; simp [PyVal.isDictB] at hsafe
          | vother => rw [hargs] at hsafe; simp [PyVal.isDictB] at hsafe

theorem execute_tool_calls_loop_ok (available : List AgentTool)
    (conns : List (Int × MCPServerConnection)) (oracle : Nat → DispatchEvent) :
    ∀ (calls : List RawToolCall) (i : Nat),
      (∀ tc ∈ calls, RawToolCall.safeB tc = true) →
      ∃ rs, AgentService.execute_tool_calls_loop available conns oracle i calls = .ok rs ∧
        rs.length = calls.length ∧
        ∀ j (hj : j < calls.length) (hj' : j < rs.length),
          AgentService.execute_one_tool_call available conns (calls.get ⟨j, hj⟩)
              (oracle (i + j))
            = .ok (rs.get ⟨j, hj'⟩) := by
  intro calls
  induction calls with
  | nil =>
      intro i h
      exact ⟨[], rfl, rfl, fun j hj hj' => absurd hj (by simp)⟩
  | cons tc rest ih =>
      intro i h
      obtain ⟨r, hr⟩ :=
        execute_one_tool_call_safe_isOk available conns tc (oracle i) (h tc (by simp))
      obtain ⟨rs, hrs, hlen, hidx⟩ := ih (i + 1) (fun c hc => h c (by simp [hc]))
      refine ⟨r :: rs, ?_, by simp [hlen], ?_⟩
      · unfold AgentService.execute_tool_calls_loop
        rw [hr, hrs]
      · intro j hj hj'
        cases j with
        | zero => simpa using hr
        | succ j' =>
            have hj1 : j' < rest.length := by simpa using hj
            have hj2 : j' < rs.length := by simpa using hj'
            have hstep := hidx j' hj1 hj2
            have harith : i + 1 + j' = i + (j' + 1) := by omega
            rw [harith] at hstep
            simpa using hstep

/-- C7: under an input list in which no call triggers the one pydantic
validation crash (in particular, under any list of calls parsed from an
LLM reply), `_execute_tool_calls` produces exactly one `ToolResult` per
tool call, and the result list preserves call order: the j-th result is
exactly the outcome of processing the j-th call (malformed and
unresolvable calls included, which yield local error results). -/
theorem C7_tool_calls_sequential (available : List AgentTool)
    (conns : List (Int × MCPServerConnection)) (calls : List RawToolCall)
    (oracle : Nat → DispatchEvent)
    (hsafe : ∀ tc ∈ calls, RawToolCall.safeB tc = true) :
    (AgentService.execute_tool_calls available conns calls oracle).length = calls.length ∧
    ∀ j (hj : j < calls.length)
      (hj' : j < (AgentService.execute_tool_calls available conns calls oracle).length),
      AgentService.execute_one_tool_call available conns (calls.get ⟨j, hj⟩) (oracle j)
        = .ok ((AgentService.execute_tool_calls available conns calls oracle).get ⟨j, hj'⟩) := by
  obtain ⟨rs, hrs, hlen, hidx⟩ :=
    execute_tool_calls_loop_ok available conns oracle calls 0 hsafe
  have heq : AgentService.execute_tool_calls available conns calls oracle = rs := by
    unfold AgentService.execute_tool_calls
    rw [hrs]
  rw [heq]
  refine ⟨hlen, fun j hj hj' => ?_⟩
  have := hidx j hj hj'
  simpa using this

theorem C7_tool_calls_sequential_witness :
    (AgentService.execute_tool_calls [] [] [RawToolCall.notDict] (fun _ => .timeout)).length
      = ([RawToolCall.notDict] : List RawToolCall).length ∧
    ∀ j (hj : j < ([RawToolCall.notDict] : List RawToolCall).length)
      (hj' : j < (AgentService.execute_tool_calls [] [] [RawToolCall.notDict]
        (fun _ => .timeout)).length),
      AgentService.execute_one_tool_call [] []
          (([RawToolCall.notDict] : List RawToolCall).get ⟨j, hj⟩) .timeout
        = .ok ((AgentService.execute_tool_calls [] [] [RawToolCall.notDict]
            (fun _ => .timeout)).get ⟨j, hj'⟩) :=
  C7_tool_calls_sequential [] [] [RawToolCall.notDict] (fun _ => .timeout)
    (by intro tc htc; rw [List.mem_singleton] at htc; subst htc; rfl)

theorem build_tool_results_message_loop_eq (rs : List AgentToolResult) :
    ∀ (i : Nat) (acc : String),
      AgentService.build_tool_results_message_loop i acc rs = acc ++ followupItemsSpec i rs := by
  induction rs with
  | nil =>
      intro i acc
      simp [AgentService.build_tool_results_message_loop, followupItemsSpec]
  | cons r rest ih =>
      intro i acc
      unfold AgentService.build_tool_results_message_loop followupItemsSpec
      rw [ih]
      cases hsuc : r.success with
      | true => simp [followupItemSpec, hsuc, String.append_assoc]
      | false => simp [followupItemSpec, hsuc, String.append_assoc]

/-- C8: for every non-empty result list, the follow-up message sent to the
LLM is the fixed header followed by the enumeration, in result order, of
items 1..N, each carrying a ✅/❌ marker and either its payload — the
first 500 characters plus "... (truncated)" when longer than 500,
verbatim otherwise — or, when failed, its error text (the spec-side item
shape is `followupItemSpec`). -/
theorem C8_followup_message (rs : List AgentToolResult) (_hne : rs ≠ []) :
    AgentService.build_tool_results_message rs
      = "Tool execution completed. Results:\n" ++ followupItemsSpec 1 rs := by
  unfold AgentService.build_tool_results_message
  exact build_tool_results_message_loop_eq rs 1 _

theorem C8_followup_message_witness :
    AgentService.build_tool_results_message
        [⟨"t1", [], String.mk (List.replicate 2000 'a'), true, none⟩,
         ⟨"t2", [], "", false, some "bad"⟩]
      = "Tool execution completed. Results:\n"
        ++ followupItemsSpec 1
            [⟨"t1", [], String.mk (List.replicate 2000 'a'), true, none⟩,
             ⟨"t2", [], "", false, some "bad"⟩] :=
  C8_followup_message
    [⟨"t1", [], String.mk (List.replicate 2000 'a'), true, none⟩,
     ⟨"t2", [], "", false, some "bad"⟩] (by simp)
